import Mathlib

/-
Verification of the Phase Drift Explorer simulation engine.

The driver loop is translated from src/app_fixed.py (lines 28-78).  The
simulation modules it imports (simulation.phase_space, simulation.constraint,
simulation.attractor, simulation.observer, simulation.visualizer) are not in
the repository snapshot, so their operations are modelled from the spec
(spec.md sections 3, 4.1-4.7); each such definition carries a doc comment
saying so.  Machine floats are modelled as exact rationals; the Euclidean
norm (numpy.linalg.norm) is valued in the reals.

The force vector of length 1+D is represented head/tail split as a pair
(component 0, components 1..D).  This matches the spec's f[0] / f[1:]
decomposition and the driver's own usage: line 67 of app_fixed.py computes
np.concatenate([np.atleast_1d(g[0]), g[1]]), i.e. g[0] is the scalar
identity component and g[1] the memory-force vector.
-/

namespace PhaseDrift

/-- Symbolic state (spec section 3; constructed as SymbolicState(x, m, r) at
src/app_fixed.py line 34 and line 62): identity scalar `x`, memory vector
`m` and resonance function `r` (a function of time, never integrated). -/
structure SymbolicState where
  x : ℚ
  m : List ℚ
  r : ℚ → ℚ

/-- A force vector of length 1+D, split as (component 0, components 1..D). -/
abbrev Force := ℚ × List ℚ

/-- Phase space (spec section 3): the collapse threshold `theta` fixed at
construction, and the ordered state sequence. -/
structure PhaseSpace where
  theta : ℚ
  states : List SymbolicState

/-- Error kinds of the engine (spec section 7); only the dimension check is
reachable from the claims under study. -/
inductive EngineError where
  | DimensionMismatch

/-- Modelled from the spec: section 4.2, PhaseSpace.add_state (the
simulation.phase_space module is not in the snapshot).  Appends the state
when its memory dimension agrees with all previously added states, and
fails with DimensionMismatch otherwise, leaving the phase space unchanged. -/
def PhaseSpace.add_state (ps : PhaseSpace) (s : SymbolicState) :
    Except EngineError PhaseSpace :=
  if ps.states.all (fun s0 => s0.m.length == s.m.length) then
    Except.ok { ps with states := ps.states ++ [s] }
  else
    Except.error EngineError.DimensionMismatch

/-- The fixed integration rule of spec section 4.2 applied to one state:
identity advances by force component 0, memory by components 1..D
elementwise, resonance is unchanged. -/
def integrate (s : SymbolicState) (g : Force) : SymbolicState :=
  ⟨s.x + g.1, List.zipWith (fun a b => a + b) s.m g.2, s.r⟩

/-- Modelled from the spec: section 4.2, PhaseSpace.step (the
simulation.phase_space module is not in the snapshot).  Maps each state in
order to its integrated successor and replaces the sequence wholesale;
`theta` is untouched.  Only the success path is modelled: for a force of
the specified length 1+D the zipWith is full elementwise addition (the
ForceShapeError path for ill-shaped forces is outside the claims). -/
def PhaseSpace.step (ps : PhaseSpace) (force_fn : SymbolicState → Force) :
    PhaseSpace :=
  { ps with states := ps.states.map (fun s => integrate s (force_fn s)) }

/-- Modelled from the spec: section 4.3, the constraint field (the
simulation.constraint module is not in the snapshot).  The exact coupling
law is implementation-defined (spec section 9), so `gradient` is carried
as a function field: state, time, neighbor states to a force vector. -/
structure KarmicConstraintField where
  gradient : SymbolicState → ℕ → List SymbolicState → Force

/-- Modelled from the spec: section 4.4, the attractor (the
simulation.attractor module is not in the snapshot).  The pull law is
implementation-defined (spec section 9), so `stabilize` is carried as a
function field returning the (new identity, new memory, new resonance)
triple unpacked at src/app_fixed.py line 61. -/
structure Attractor where
  center_x : ℚ
  memory_pattern : List ℚ
  identity_function : ℚ → ℚ
  stabilize : SymbolicState → ℕ → ℚ × List ℚ × (ℚ → ℚ)

/-- Modelled from the spec: section 4.5, the observer (the
simulation.observer module is not in the snapshot).  `boundary_deformation`
is a scalar perturbation, implementation-defined, carried as a function
field. -/
structure Observer where
  identity_function : ℚ → ℚ
  memory_vector : List ℚ
  boundary_deformation : SymbolicState → ℕ → ℚ

/-- Sum of squares of a rational vector. -/
def sumSq (l : List ℚ) : ℚ := (l.map (fun a => a * a)).sum

/-- Euclidean norm of a rational vector, valued in the reals
(numpy.linalg.norm of src/app_fixed.py line 67). -/
noncomputable def euclidNorm (l : List ℚ) : ℝ := Real.sqrt ((sumSq l : ℚ) : ℝ)

/-- Per-state collapse test of src/app_fixed.py lines 66-69:
np.linalg.norm(np.concatenate([np.atleast_1d(g[0]), g[1]])) > ps.theta,
that is, the Euclidean norm of the full 1+D force vector strictly exceeds
the threshold. -/
def collapsedProp (g : Force) (theta : ℚ) : Prop :=
  (theta : ℝ) < euclidNorm (g.1 :: g.2)

theorem sumSq_nonneg (l : List ℚ) : 0 ≤ sumSq l := by
  refine List.sum_nonneg ?_
  intro y hy
  simp only [List.mem_map] at hy
  obtain ⟨a, -, rfl⟩ := hy
  exact mul_self_nonneg a

theorem collapsedProp_iff (g : Force) (theta : ℚ) :
    collapsedProp g theta ↔ (theta < 0 ∨ theta * theta < sumSq (g.1 :: g.2)) := by
  unfold collapsedProp euclidNorm
  constructor
  · intro h
    by_cases hθ : theta < 0
    · exact Or.inl hθ
    · push_neg at hθ
      right
      have h0 : (0 : ℝ) ≤ (theta : ℚ) := by exact_mod_cast hθ
      have h2 := (Real.lt_sqrt h0).mp h
      rw [sq] at h2
      exact_mod_cast h2
  · rintro (hθ | hlt)
    · have hθR : ((theta : ℚ) : ℝ) < 0 := by exact_mod_cast hθ
      exact lt_of_lt_of_le hθR (Real.sqrt_nonneg _)
    · by_cases hθ : 0 ≤ theta
      · have h0 : (0 : ℝ) ≤ (theta : ℚ) := by exact_mod_cast hθ
        refine (Real.lt_sqrt h0).mpr ?_
        rw [sq]
        exact_mod_cast hlt
      · push_neg at hθ
        have hθR : ((theta : ℚ) : ℝ) < 0 := by exact_mod_cast hθ
        exact lt_of_lt_of_le hθR (Real.sqrt_nonneg _)

instance (g : Force) (theta : ℚ) : Decidable (collapsedProp g theta) :=
  decidable_of_iff (theta < 0 ∨ theta * theta < sumSq (g.1 :: g.2))
    (collapsedProp_iff g theta).symm

/-- Modelled from the spec: section 4.7, the snapshot taken by
HistoryRecorder.record (the simulation.visualizer module is not in the
snapshot): the ordered sequence of (identity, Euclidean norm of memory)
pairs of the given states. -/
noncomputable def snapshotOf (states : List SymbolicState) : List (ℚ × ℝ) :=
  states.map (fun s => (s.x, euclidNorm s.m))

/-- Modelled from the spec: sections 3 and 4.7, the HistoryRecorder (the
simulation.visualizer module is not in the snapshot): an append-only
ordered sequence of snapshots. -/
structure SymbolicVisualizer where
  history : List (List (ℚ × ℝ))

/-- Modelled from the spec: section 4.7, record appends one snapshot,
computed at call time, and transforms nothing already stored. -/
noncomputable def SymbolicVisualizer.record (v : SymbolicVisualizer)
    (states : List SymbolicState) : SymbolicVisualizer :=
  ⟨v.history ++ [snapshotOf states]⟩

/-- The combined force function of src/app_fixed.py lines 53-57: the
observer deformation delta_k is added to component 0 of the constraint
gradient (grad[0] += delta_k), the remaining components pass unchanged.
`current_states` is the neighbor list the closure captured at line 51. -/
def gradient_func (kce : KarmicConstraintField) (observer : Observer)
    (current_states : List SymbolicState) (t : ℕ) (state : SymbolicState) :
    Force :=
  let delta_k := observer.boundary_deformation state t
  let grad := kce.gradient state t current_states
  (grad.1 + delta_k, grad.2)

/-- Stabilization pass of src/app_fixed.py lines 59-62: each state is
replaced by the SymbolicState built from the attractor's triple. -/
def stabilizeAll (attractor : Attractor) (t : ℕ)
    (states : List SymbolicState) : List SymbolicState :=
  states.map (fun state =>
    let srr := attractor.stabilize state t
    SymbolicState.mk srr.1 srr.2.1 srr.2.2)

/-- The fixed components a run is configured with (src/app_fixed.py
lines 28-46). -/
structure SimConfig where
  attractor : Attractor
  kce : KarmicConstraintField
  observer : Observer

/-- The mutable data of one run: the phase space, the recorder and the
per-step collapse flag list (src/app_fixed.py lines 28, 30, 48). -/
structure SimState where
  ps : PhaseSpace
  viz : SymbolicVisualizer
  collapse_flags : List Bool

/-- One iteration of the driver loop, src/app_fixed.py lines 50-73:
capture current_states (line 51); build gradient_func over them (lines
53-57); stabilize all states and install them (lines 59-63); evaluate the
per-state collapse flags at the stabilized states (lines 65-69; the
Python slice g[:2] of the two-component gradient is the identity);
append the per-step flag any(collapsed_flags) (line 70); integrate (line
72); record the post-step states (line 73). -/
noncomputable def simStep (cfg : SimConfig) (t : ℕ) (st : SimState) : SimState :=
  let current_states := st.ps.states
  let gf := gradient_func cfg.kce cfg.observer current_states t
  let stabilized_states := stabilizeAll cfg.attractor t current_states
  let ps1 : PhaseSpace := { st.ps with states := stabilized_states }
  let grads := ps1.states.map gf
  let collapsed_flags := grads.map (fun g => decide (collapsedProp g ps1.theta))
  let flags1 := st.collapse_flags ++ [collapsed_flags.any id]
  let ps2 := ps1.step gf
  let viz1 := st.viz.record ps2.states
  ⟨ps2, viz1, flags1⟩

/-- The driver loop for t in range(timesteps) of src/app_fixed.py line 50,
started from a fresh recorder and an empty flag list (lines 30, 48). -/
noncomputable def runSim (cfg : SimConfig) (ps0 : PhaseSpace) : ℕ → SimState
  | 0 => ⟨ps0, ⟨[]⟩, []⟩
  | n + 1 => simStep cfg n (runSim cfg ps0 n)

/-- Zipping a list with its own image is the pointwise combination. -/
theorem zipWith_self_map {α β γ : Type} (f : α → β → γ) (g : α → β) :
    ∀ l : List α, List.zipWith f l (l.map g) = l.map (fun a => f a (g a))
  | [] => rfl
  | a :: l => by
      simp only [List.map_cons, List.zipWith_cons_cons, zipWith_self_map f g l]

/- Test fixtures used by witnesses: degenerate components with all-zero
laws, and small concrete states. -/

def testAttractor : Attractor := ⟨0, [0, 0], fun _ => 0, fun s _ => (s.x, s.m, s.r)⟩

def testField : KarmicConstraintField := ⟨fun _ _ _ => (0, [0, 0])⟩

def testObserver : Observer := ⟨fun _ => 0, [0, 0], fun _ _ => 0⟩

def testConfig : SimConfig := ⟨testAttractor, testField, testObserver⟩

def emptyPS : PhaseSpace := ⟨1, []⟩

def wState : SymbolicState := ⟨0, [3], fun q => q⟩

def wPS : PhaseSpace := ⟨1, [wState]⟩

def wForce : SymbolicState → Force := fun _ => ((2 : ℚ), [5])

def wState2 : SymbolicState := ⟨1, [1 / 2, -(1 / 2)], fun _ => 0⟩

def wPS2 : PhaseSpace := ⟨3 / 4, [wState2]⟩

def wState3 : SymbolicState := ⟨0, [1, 2, 3], fun _ => 0⟩

/-- C1: the collapse test of src/app_fixed.py lines 66-69 flags a state
exactly when the Euclidean norm of the full 1+D force vector strictly
exceeds theta; a norm equal to theta is not flagged; for a positive
threshold the test is the square-free comparison theta * theta < sum of
squares. -/
theorem collapse_flag_iff_norm_gt_theta (g : Force) (theta : ℚ)
    (hθ : 0 < theta) :
    (collapsedProp g theta ↔ (theta : ℝ) < euclidNorm (g.1 :: g.2))
    ∧ (euclidNorm (g.1 :: g.2) = (theta : ℝ) → ¬ collapsedProp g theta)
    ∧ (collapsedProp g theta ↔ theta * theta < sumSq (g.1 :: g.2)) := by
  refine ⟨Iff.rfl, ?_, ?_⟩
  · intro he hc
    unfold collapsedProp at hc
    rw [he] at hc
    exact lt_irrefl _ hc
  · rw [collapsedProp_iff]
    constructor
    · rintro (h | h)
      · exact absurd h (not_lt.mpr hθ.le)
      · exact h
    · exact Or.inr

theorem collapse_flag_iff_norm_gt_theta_witness :
    (0 : ℚ) < 4
    ∧ ((collapsedProp ((3 : ℚ), [4]) 4 ↔ (4 : ℝ) < euclidNorm ((3 : ℚ) :: [4]))
       ∧ (euclidNorm ((3 : ℚ) :: [4]) = (4 : ℝ) → ¬ collapsedProp ((3 : ℚ), [4]) 4)
       ∧ (collapsedProp ((3 : ℚ), [4]) 4 ↔ (4 : ℚ) * 4 < sumSq ((3 : ℚ) :: [4]))) :=
  ⟨by norm_num, collapse_flag_iff_norm_gt_theta ((3 : ℚ), [4]) 4 (by norm_num)⟩

/-- C2: PhaseSpace.step keeps theta, preserves the number and order of
states, and sends the i-th state to its integrated successor, whose
identity is shifted by force component 0, whose memory is shifted
elementwise by force components 1..D, and whose resonance is unchanged. -/
theorem step_updates_fields (ps : PhaseSpace) (f : SymbolicState → Force)
    (hf : ∀ s ∈ ps.states, ((f s).2).length = s.m.length) :
    (ps.step f).theta = ps.theta
    ∧ (ps.step f).states.length = ps.states.length
    ∧ (∀ i (hi : i < ps.states.length) (hi2 : i < (ps.step f).states.length),
        (ps.step f).states.get ⟨i, hi2⟩
          = integrate (ps.states.get ⟨i, hi⟩) (f (ps.states.get ⟨i, hi⟩)))
    ∧ ∀ s ∈ ps.states,
        (integrate s (f s)).x = s.x + (f s).1
        ∧ (integrate s (f s)).r = s.r
        ∧ (integrate s (f s)).m.length = s.m.length
        ∧ ∀ j (hj : j < (integrate s (f s)).m.length) (hj2 : j < s.m.length)
            (hj3 : j < ((f s).2).length),
            (integrate s (f s)).m.get ⟨j, hj⟩
              = s.m.get ⟨j, hj2⟩ + ((f s).2).get ⟨j, hj3⟩ := by
  refine ⟨rfl, by simp [PhaseSpace.step], ?_, ?_⟩
  · intro i hi hi2
    simp [PhaseSpace.step, List.get_eq_getElem, List.getElem_map]
  · intro s hs
    refine ⟨rfl, rfl, ?_, ?_⟩
    · simp [integrate, List.length_zipWith, hf s hs]
    · intro j hj hj2 hj3
      simp [integrate, List.get_eq_getElem, List.getElem_zipWith]

theorem step_updates_fields_witness :
    (∀ s ∈ wPS.states, ((wForce s).2).length = s.m.length)
    ∧ ((wPS.step wForce).theta = wPS.theta
       ∧ (wPS.step wForce).states.length = wPS.states.length
       ∧ (∀ i (hi : i < wPS.states.length) (hi2 : i < (wPS.step wForce).states.length),
           (wPS.step wForce).states.get ⟨i, hi2⟩
             = integrate (wPS.states.get ⟨i, hi⟩) (wForce (wPS.states.get ⟨i, hi⟩)))
       ∧ ∀ s ∈ wPS.states,
           (integrate s (wForce s)).x = s.x + (wForce s).1
           ∧ (integrate s (wForce s)).r = s.r
           ∧ (integrate s (wForce s)).m.length = s.m.length
           ∧ ∀ j (hj : j < (integrate s (wForce s)).m.length) (hj2 : j < s.m.length)
               (hj3 : j < ((wForce s).2).length),
               (integrate s (wForce s)).m.get ⟨j, hj⟩
                 = s.m.get ⟨j, hj2⟩ + ((wForce s).2).get ⟨j, hj3⟩) := by
  have hyp : ∀ s ∈ wPS.states, ((wForce s).2).length = s.m.length := by
    intro s hs
    have h1 : s = wState := by simpa [wPS] using hs
    rw [h1]
    rfl
  exact ⟨hyp, step_updates_fields wPS wForce hyp⟩

/-- C3: each driver iteration performs, in this order: stabilize all states,
build the combined force over the pre-stabilization neighbor list, compute
the per-state collapse flags at the stabilized states and append their
disjunction, integrate by PhaseSpace.step, and append one snapshot of the
resulting states to the history. -/
theorem sim_loop_order (cfg : SimConfig) (ps0 : PhaseSpace) (n : ℕ) :
    runSim cfg ps0 (n + 1) =
      (let st := runSim cfg ps0 n
       let gf := gradient_func cfg.kce cfg.observer st.ps.states n
       let stab := stabilizeAll cfg.attractor n st.ps.states
       let ps2 := PhaseSpace.step { theta := st.ps.theta, states := stab } gf
       ⟨ps2,
        ⟨st.viz.history ++ [snapshotOf ps2.states]⟩,
        st.collapse_flags ++
          [((stab.map gf).map
              (fun g => decide (collapsedProp g st.ps.theta))).any id]⟩) := rfl

/-- C4: the per-step collapse flag and the integration both consume the very
same list of force values, evaluated at the post-stabilization,
pre-integration states. -/
theorem force_evaluated_once_shared (cfg : SimConfig) (ps0 : PhaseSpace) (n : ℕ) :
    (runSim cfg ps0 (n + 1)).collapse_flags
        = (runSim cfg ps0 n).collapse_flags ++
            [(((stabilizeAll cfg.attractor n (runSim cfg ps0 n).ps.states).map
                  (gradient_func cfg.kce cfg.observer (runSim cfg ps0 n).ps.states n)).map
                (fun g => decide (collapsedProp g (runSim cfg ps0 n).ps.theta))).any id]
    ∧ (runSim cfg ps0 (n + 1)).ps.states
        = List.zipWith integrate
            (stabilizeAll cfg.attractor n (runSim cfg ps0 n).ps.states)
            ((stabilizeAll cfg.attractor n (runSim cfg ps0 n).ps.states).map
              (gradient_func cfg.kce cfg.observer (runSim cfg ps0 n).ps.states n)) := by
  constructor
  · rfl
  · rw [zipWith_self_map integrate
      (gradient_func cfg.kce cfg.observer (runSim cfg ps0 n).ps.states n)
      (stabilizeAll cfg.attractor n (runSim cfg ps0 n).ps.states)]
    rfl

/-- C5: after n completed steps the history is exactly the ordered sequence
of the n per-step snapshots of the post-step states, hence has length n, and
each further step only appends (the old history is a prefix of the new). -/
theorem history_invariants (cfg : SimConfig) (ps0 : PhaseSpace) (n : ℕ) :
    (runSim cfg ps0 n).viz.history
        = (List.range n).map (fun i => snapshotOf ((runSim cfg ps0 (i + 1)).ps.states))
    ∧ ((runSim cfg ps0 n).viz.history).length = n
    ∧ List.IsPrefix ((runSim cfg ps0 n).viz.history)
        ((runSim cfg ps0 (n + 1)).viz.history) := by
  have hmain : ∀ k, (runSim cfg ps0 k).viz.history
      = (List.range k).map (fun i => snapshotOf ((runSim cfg ps0 (i + 1)).ps.states)) := by
    intro k
    induction k with
    | zero => rfl
    | succ k ih =>
      have hstep : (runSim cfg ps0 (k + 1)).viz.history
          = (runSim cfg ps0 k).viz.history
              ++ [snapshotOf ((runSim cfg ps0 (k + 1)).ps.states)] := rfl
      rw [hstep, ih, List.range_succ, List.map_append]
      rfl
  refine ⟨hmain n, ?_, ?_⟩
  · rw [hmain n]
    simp
  · have hstep : (runSim cfg ps0 (n + 1)).viz.history
        = (runSim cfg ps0 n).viz.history
            ++ [snapshotOf ((runSim cfg ps0 (n + 1)).ps.states)] := rfl
    rw [hstep]
    exact List.prefix_append _ _

/-- C6: the per-step collapse flag appended at step n is the disjunction
(Python any) of the per-state flags of that step, which holds exactly when
some per-state flag is true; with zero states the appended flag is false. -/
theorem step_flag_or (cfg : SimConfig) (ps0 : PhaseSpace) (n : ℕ) :
    (runSim cfg ps0 (n + 1)).collapse_flags
        = (runSim cfg ps0 n).collapse_flags ++
            [(((stabilizeAll cfg.attractor n (runSim cfg ps0 n).ps.states).map
                  (gradient_func cfg.kce cfg.observer (runSim cfg ps0 n).ps.states n)).map
                (fun g => decide (collapsedProp g (runSim cfg ps0 n).ps.theta))).any id
              ]
    ∧ ((((stabilizeAll cfg.attractor n (runSim cfg ps0 n).ps.states).map
            (gradient_func cfg.kce cfg.observer (runSim cfg ps0 n).ps.states n)).map
          (fun g => decide (collapsedProp g (runSim cfg ps0 n).ps.theta))).any id = true
        ↔ ∃ b ∈ ((stabilizeAll cfg.attractor n (runSim cfg ps0 n).ps.states).map
            (gradient_func cfg.kce cfg.observer (runSim cfg ps0 n).ps.states n)).map
              (fun g => decide (collapsedProp g (runSim cfg ps0 n).ps.theta)), b = true)
    ∧ ((runSim cfg ps0 n).ps.states = [] →
        (runSim cfg ps0 (n + 1)).collapse_flags
          = (runSim cfg ps0 n).collapse_flags ++ [false]) := by
  refine ⟨rfl, by simp, ?_⟩
  intro h
  have h2 : (runSim cfg ps0 (n + 1)).collapse_flags
      = (runSim cfg ps0 n).collapse_flags ++
          [(((stabilizeAll cfg.attractor n (runSim cfg ps0 n).ps.states).map
                (gradient_func cfg.kce cfg.observer (runSim cfg ps0 n).ps.states n)).map
              (fun g => decide (collapsedProp g (runSim cfg ps0 n).ps.theta))).any id
            ] := rfl
  rw [h2, h]
  rfl

theorem step_flag_or_witness :
    (runSim testConfig emptyPS 0).ps.states = []
    ∧ (runSim testConfig emptyPS 1).collapse_flags
        = (runSim testConfig emptyPS 0).collapse_flags ++ [false] :=
  ⟨rfl, (step_flag_or testConfig emptyPS 0).2.2 rfl⟩

/-- C7: adding a state whose memory dimension disagrees with the states a
nonempty PhaseSpace already holds fails with DimensionMismatch (and produces
no modified phase space); adding a state of the matching dimension appends
it at the end. -/
theorem add_state_dimension_check (ps : PhaseSpace) (s : SymbolicState) (D : ℕ)
    (hD : ∀ s0 ∈ ps.states, s0.m.length = D) (hne : ps.states ≠ []) :
    (s.m.length ≠ D → ps.add_state s = Except.error EngineError.DimensionMismatch)
    ∧ (s.m.length = D →
        ps.add_state s = Except.ok { ps with states := ps.states ++ [s] }) := by
  constructor
  · intro hsD
    unfold PhaseSpace.add_state
    rw [if_neg]
    intro hall
    rw [List.all_eq_true] at hall
    obtain ⟨s0, hs0⟩ := List.exists_mem_of_ne_nil ps.states hne
    have h1 : s0.m.length = s.m.length := by
      have := hall s0 hs0
      simpa using this
    exact hsD (h1.symm.trans (hD s0 hs0))
  · intro hsD
    unfold PhaseSpace.add_state
    rw [if_pos]
    rw [List.all_eq_true]
    intro s0 hs0
    have h1 : s0.m.length = D := hD s0 hs0
    rw [Nat.beq_eq_true_eq]
    rw [h1, hsD]

theorem add_state_dimension_check_witness :
    (∀ s0 ∈ wPS2.states, s0.m.length = 2)
    ∧ wPS2.states ≠ []
    ∧ ((wState3.m.length ≠ 2 →
          wPS2.add_state wState3 = Except.error EngineError.DimensionMismatch)
       ∧ (wState3.m.length = 2 →
          wPS2.add_state wState3
            = Except.ok { wPS2 with states := wPS2.states ++ [wState3] })) := by
  have h1 : ∀ s0 ∈ wPS2.states, s0.m.length = 2 := by
    intro s0 hs0
    have h0 : s0 = wState2 := by simpa [wPS2] using hs0
    rw [h0]
    rfl
  have h2 : wPS2.states ≠ [] := by simp [wPS2]
  exact ⟨h1, h2, add_state_dimension_check wPS2 wState3 2 h1 h2⟩

/-- C8: the combined force adds the observer boundary deformation only to
component 0 of the constraint gradient; components 1..D are the raw
gradient unchanged. -/
theorem observer_deformation_component_zero (kce : KarmicConstraintField)
    (observer : Observer) (ns : List SymbolicState) (t : ℕ) (s : SymbolicState) :
    (gradient_func kce observer ns t s).1
        = (kce.gradient s t ns).1 + observer.boundary_deformation s t
    ∧ (gradient_func kce observer ns t s).2 = (kce.gradient s t ns).2 :=
  ⟨rfl, rfl⟩

/-- C9: the successor states of step n are obtained by evaluating the
constraint gradient with the pre-stabilization state list as the neighbor
argument, while the state argument runs over the post-stabilization
states. -/
theorem neighbor_states_pre_stabilization (cfg : SimConfig) (ps0 : PhaseSpace)
    (n : ℕ) :
    (runSim cfg ps0 (n + 1)).ps.states
        = (stabilizeAll cfg.attractor n (runSim cfg ps0 n).ps.states).map
            (fun s => integrate s
              ((cfg.kce.gradient s n (runSim cfg ps0 n).ps.states).1
                  + cfg.observer.boundary_deformation s n,
               (cfg.kce.gradient s n (runSim cfg ps0 n).ps.states).2)) := rfl

/-- C10: the loop starts at time 0 with the initial phase space, a fresh
recorder and no flags; step n + 1 applies simStep at time index n; inside
that step the attractor stabilization, the constraint gradient and the
observer deformation all receive the same time value n. -/
theorem loop_time_arguments (cfg : SimConfig) (ps0 : PhaseSpace) (n : ℕ) :
    runSim cfg ps0 0 = ⟨ps0, ⟨[]⟩, []⟩
    ∧ runSim cfg ps0 (n + 1) = simStep cfg n (runSim cfg ps0 n)
    ∧ (runSim cfg ps0 (n + 1)).ps.states
        = ((runSim cfg ps0 n).ps.states.map (fun s =>
              SymbolicState.mk (cfg.attractor.stabilize s n).1
                (cfg.attractor.stabilize s n).2.1
                (cfg.attractor.stabilize s n).2.2)).map
            (fun s => integrate s
              ((cfg.kce.gradient s n (runSim cfg ps0 n).ps.states).1
                  + cfg.observer.boundary_deformation s n,
               (cfg.kce.gradient s n (runSim cfg ps0 n).ps.states).2)) :=
  ⟨rfl, rfl, rfl⟩

end PhaseDrift
